import Mathlib

/-!
Verification of the news-backend core (authentication and article query
logic) against its design specification.  The Python source is shallowly
embedded: SQLModel rows become structures, the SQLite-backed query chain
becomes list filtering with SQLite window (LIMIT/OFFSET) semantics,
HTTP-level exceptions become an explicit error type, and external
library calls (bcrypt password hashing, JWT decoding, JSON tag
serialization) are modelled at their interfaces.
-/

namespace NewsBackend

/-- Closed category enumeration from models.py (CategoryEnum). -/
inductive CategoryEnum where
  | market
  | technology
  | event
  | regulation
  | innovation
  | analysis
deriving DecidableEq, Repr

/-- String value of a category, as persisted (str Enum values). -/
def categoryStr : CategoryEnum → String
  | .market => "market"
  | .technology => "technology"
  | .event => "event"
  | .regulation => "regulation"
  | .innovation => "innovation"
  | .analysis => "analysis"

/-- Status enumeration from models.py (StatusEnum). -/
inductive StatusEnum where
  | published
  | draft
deriving DecidableEq, Repr

/-- String value of a status, as persisted. -/
def statusStr : StatusEnum → String
  | .published => "published"
  | .draft => "draft"

/-- Modelled from the spec: the repository delegates password hashing to
the external passlib/bcrypt library (`pwd_context.hash`), which is not
part of this repository.  Per the spec it is a salted one-way transform:
the salt varies between calls, and the digest is determined by salt and
password.  We model the stored hash as a salt together with a digest. -/
structure HashedPassword where
  salt : Nat
  digest : String
deriving DecidableEq, Repr

/-- Modelled from the spec: the bcrypt digest function, an idealized
keyed digest that is collision-free in the password for a fixed salt
(the spec assumes verify fails for any other password). -/
def bcryptDigest (salt : Nat) (password : String) : String :=
  toString salt ++ ":" ++ password

/-- hash_password from auth.py, with the nondeterministic salt choice of
`pwd_context.hash` made an explicit argument. -/
def hash_password (salt : Nat) (password : String) : HashedPassword :=
  ⟨salt, bcryptDigest salt password⟩

/-- verify_password from auth.py: `pwd_context.verify` recomputes the
digest from the stored hash's embedded salt and compares. -/
def verify_password (plain_password : String) (hashed_password : HashedPassword) : Bool :=
  bcryptDigest hashed_password.salt plain_password == hashed_password.digest

/-- User row from models.py. -/
structure User where
  id : String
  name : String
  email : String
  password_hash : HashedPassword
  role : String
deriving DecidableEq, Repr

/-- Article row from models.py.  `published_at` is kept as its opaque
ISO rendering; `tags` is the persisted encoded text blob. -/
structure Article where
  id : String
  title : String
  content : String
  excerpt : String
  category : CategoryEnum
  author : String
  published_at : String
  read_time : String
  image_url : Option String
  tags : String
  status : StatusEnum
deriving DecidableEq, Repr

/-- An HTTPException as raised by the handlers: status code and detail. -/
structure HTTPError where
  status_code : Nat
  detail : String
deriving DecidableEq, Repr

/-- The single exception value raised by get_current_user in auth.py for
every failure cause. -/
def credentials_exception : HTTPError :=
  ⟨401, "Could not validate credentials"⟩

/-- Outcome of `jwt.decode` on the presented bearer token, the external
jose-library call in get_current_user.  A JWTError is raised when the
signature does not verify or the token is structurally malformed, and
its subclass ExpiredSignatureError is raised when the expiry has passed;
the `expired` flag records which.  Otherwise decoding yields a claim set
whose `sub` entry may be absent. -/
inductive DecodeOutcome where
  | jwtError (expired : Bool)
  | payload (sub : Option String)
deriving DecidableEq, Repr

/-- get_current_user from auth.py, lines 49-71: decode the token
(any JWTError, expired or not, is caught by the one `except JWTError`),
require a `sub` claim, then resolve it against the user table; every
failure raises the same `credentials_exception`. -/
def get_current_user (decoded : DecodeOutcome) (users : List User) :
    Except HTTPError User :=
  match decoded with
  | .jwtError _ => .error credentials_exception
  | .payload sub =>
    match sub with
    | none => .error credentials_exception
    | some user_id =>
      match users.find? (fun u => u.id == user_id) with
      | none => .error credentials_exception
      | some user => .ok user

/-- authenticate_user from auth.py, lines 40-46: exact email lookup,
then password verification; both failure paths return the same falsy
result (Python `False`, modelled as `none`). -/
def authenticate_user (users : List User) (email password : String) :
    Option User :=
  match users.find? (fun u => u.email == email) with
  | none => none
  | some user =>
    if verify_password password user.password_hash then some user else none

/-- The login handler from main.py, lines 52-58, up to the point the
caller can observe success or failure: a falsy authenticate_user result
becomes one fixed 401 response (token assembly on success is framework
glue outside the modelled core and is represented by the resolved
user). -/
def login (users : List User) (email password : String) :
    Except HTTPError User :=
  match authenticate_user users email password with
  | none => .error ⟨401, "Incorrect email or password"⟩
  | some user => .ok user

/-- Literal substring test on character lists, used to model the SQL
`LIKE '%needle%'` predicate generated by `col(...).contains(...)`. -/
def infixAux (needle : List Char) : List Char → Bool
  | [] => needle.isPrefixOf []
  | c :: rest => needle.isPrefixOf (c :: rest) || infixAux needle rest

/-- Literal substring containment on strings. -/
def strContains (s pat : String) : Bool :=
  infixAux pat.data s.data

/-- One optional query filter from get_articles in main.py: Python tests
presence by truthiness (`if category:`), so a missing parameter and an
empty-string parameter both leave the query unconstrained. -/
def truthyFilter (param : Option String) (pred : String → Bool) : Bool :=
  match param with
  | none => true
  | some s => if s == "" then true else pred s

/-- The conjunction of WHERE clauses accumulated by get_articles in
main.py, lines 88-97, applied to one row: exact category match, exact
status match (both compared through their persisted string values), and
substring search over title or content. -/
def matchesFilters (category status search : Option String) (a : Article) : Bool :=
  truthyFilter category (fun c => categoryStr a.category == c) &&
  truthyFilter status (fun s => statusStr a.status == s) &&
  truthyFilter search (fun q => strContains a.title q || strContains a.content q)

/-- The OFFSET/LIMIT window applied by `query.offset(offset).limit(limit)`
over the SQLite storage collaborator: a negative OFFSET behaves as zero,
and a negative LIMIT means no upper bound on the rows returned (SQLite
semantics for negative LIMIT/OFFSET expressions). -/
def applyWindow (rows : List Article) (offset limit : Int) : List Article :=
  let dropped := rows.drop offset.toNat
  if limit < 0 then dropped else dropped.take limit.toNat

/-- Response shape of the news listing (ArticlesResponse in models.py);
per-article dict assembly is response-shape glue and the rows are kept
as rows. -/
structure ArticlesResponse where
  articles : List Article
  total : Nat
  has_more : Bool
deriving DecidableEq, Repr

/-- get_articles from main.py, lines 79-123: build the filtered query,
count all matching rows for `total`, fetch the offset/limit window, and
compute `has_more = (offset + limit) < total`. -/
def get_articles (db : List Article) (category status search : Option String)
    (limit offset : Int) : ArticlesResponse :=
  let filtered := db.filter (matchesFilters category status search)
  let total := filtered.length
  let articles := applyWindow filtered offset limit
  let has_more := decide (offset + limit < (total : Int))
  ⟨articles, total, has_more⟩

/-- Count the maximal non-whitespace runs of a character list; the flag
records whether the previous character was inside a word. -/
def wordCountAux : Bool → List Char → Nat
  | _, [] => 0
  | inWord, c :: rest =>
    if c.isWhitespace then wordCountAux false rest
    else (if inWord then 0 else 1) + wordCountAux true rest

/-- Python `len(s.split())` with no argument: the number of maximal
whitespace-separated words, leading and trailing whitespace ignored. -/
def word_count (s : String) : Nat :=
  wordCountAux false s.data

/-- The read-time label computed in main.py from the content's word
count: `len(content.split()) // 200 + 1` rendered as minutes. -/
def read_time_of (content : String) : String :=
  toString (word_count content / 200 + 1) ++ " min"

/-- Modelled from the spec: tags are persisted through the external
stdlib `json.dumps` call on a list of strings.  A character is escaped
exactly when JSON requires it; named escapes are used for the quote,
backslash and common control characters, and remaining characters are
carried verbatim (the `ensure_ascii` transcription of non-ASCII
characters is a representation detail that does not affect the decoded
value). -/
def escapeChar (c : Char) : List Char :=
  if c = '"' then ['\\', '"']
  else if c = '\\' then ['\\', '\\']
  else if c = '\n' then ['\\', 'n']
  else if c = '\t' then ['\\', 't']
  else if c = '\r' then ['\\', 'r']
  else if c = '\x08' then ['\\', 'b']
  else if c = '\x0c' then ['\\', 'f']
  else [c]

/-- JSON rendering of one string, quotes included. -/
def encodeStringChars (s : String) : List Char :=
  '"' :: (s.data.flatMap escapeChar ++ ['"'])

/-- Array elements joined with the ", " separator `json.dumps` emits by
default. -/
def joinTags : List String → List Char
  | [] => []
  | [t] => encodeStringChars t
  | t :: ts => encodeStringChars t ++ ',' :: ' ' :: joinTags ts

/-- Modelled from the spec: `json.dumps` on the tag list — a JSON array
of JSON strings. -/
def encodeTags (tags : List String) : String :=
  ⟨'[' :: (joinTags tags ++ [']'])⟩

/-- Inverse of a named escape character, used by the decoder. -/
def unescapeChar (c : Char) : Option Char :=
  if c = '"' then some '"'
  else if c = '\\' then some '\\'
  else if c = 'n' then some '\n'
  else if c = 't' then some '\t'
  else if c = 'r' then some '\r'
  else if c = 'b' then some '\x08'
  else if c = 'f' then some '\x0c'
  else none

/-- Parse the body of a JSON string up to its closing quote, returning
the decoded characters and the unconsumed rest. -/
def parseStringBody : List Char → Option (List Char × List Char)
  | [] => none
  | c :: rest =>
    if c = '"' then some ([], rest)
    else if c = '\\' then
      match rest with
      | [] => none
      | e :: rest2 =>
        match unescapeChar e with
        | none => none
        | some d =>
          match parseStringBody rest2 with
          | none => none
          | some (s, rem) => some (d :: s, rem)
    else
      match parseStringBody rest with
      | none => none
      | some (s, rem) => some (c :: s, rem)

/-- Parse one quoted JSON string. -/
def parseJsonString (l : List Char) : Option (List Char × List Char) :=
  match l with
  | '"' :: rest => parseStringBody rest
  | _ => none

/-- Parse the non-empty item list of a JSON string array, consuming the
closing bracket, which must end the input; fuel bounds the recursion. -/
def parseItemsAux : Nat → List Char → Option (List (List Char))
  | 0, _ => none
  | fuel + 1, l =>
    match parseJsonString l with
    | none => none
    | some (s, rem) =>
      match rem with
      | [']'] => some [s]
      | ',' :: ' ' :: rem2 =>
        match parseItemsAux fuel rem2 with
        | none => none
        | some ss => some (s :: ss)
      | _ => none

/-- Modelled from the spec: `json.loads` on the persisted tag blob,
restricted to the JSON documents the encoder produces — an array of
strings. -/
def decodeTags (s : String) : Option (List String) :=
  match s.data with
  | '[' :: rest =>
    if rest = [']'] then some []
    else (parseItemsAux rest.length rest).map (List.map String.mk)
  | _ => none

/-- Request body for article creation (CreateArticleData in models.py);
`status` defaults to published when the request leaves it out. -/
structure CreateArticleData where
  title : String
  content : String
  excerpt : String
  category : CategoryEnum
  tags : List String
  image_url : Option String := none
  status : Option StatusEnum := some .published
deriving DecidableEq, Repr

/-- create_article from main.py, lines 147-167, with the two external
effects made explicit arguments: the fresh `uuid.uuid4()` identifier and
the `datetime.now` publication timestamp.  Returns the row the handler
constructs and the table after `session.add`/`commit`. -/
def create_article (freshId now : String) (data : CreateArticleData)
    (current_user : User) (db : List Article) : Article × List Article :=
  let article : Article :=
    { id := freshId
      title := data.title
      content := data.content
      excerpt := data.excerpt
      category := data.category
      author := current_user.name
      published_at := now
      read_time := read_time_of data.content
      image_url := data.image_url
      tags := encodeTags data.tags
      status := data.status.getD .published }
  (article, db ++ [article])

/-- Request body for article update (UpdateArticleData in models.py):
every field optional, absent fields left untouched. -/
structure UpdateArticleData where
  title : Option String := none
  content : Option String := none
  excerpt : Option String := none
  category : Option CategoryEnum := none
  tags : Option (List String) := none
  image_url : Option String := none
  status : Option StatusEnum := none
deriving DecidableEq, Repr

/-- The field-by-field patch applied by update_article in main.py, lines
195-209, to an existing row: each `if data.field is not None` assignment
in source order, recomputing read_time exactly when content is given. -/
def applyUpdate (a : Article) (data : UpdateArticleData) : Article :=
  let a1 := match data.title with
    | some t => { a with title := t }
    | none => a
  let a2 := match data.content with
    | some c => { a1 with content := c, read_time := read_time_of c }
    | none => a1
  let a3 := match data.excerpt with
    | some e => { a2 with excerpt := e }
    | none => a2
  let a4 := match data.category with
    | some c => { a3 with category := c }
    | none => a3
  let a5 := match data.tags with
    | some t => { a4 with tags := encodeTags t }
    | none => a4
  let a6 := match data.image_url with
    | some u => { a5 with image_url := some u }
    | none => a5
  match data.status with
  | some s => { a6 with status := s }
  | none => a6

/-- update_article from main.py, lines 184-213: look the row up by id,
404 when absent, otherwise patch it. -/
def update_article (db : List Article) (article_id : String)
    (data : UpdateArticleData) : Except HTTPError Article :=
  match db.find? (fun a => a.id == article_id) with
  | none => .error ⟨404, "Article not found"⟩
  | some a => .ok (applyUpdate a data)

/-- The matching policy as the specification words it: the conjunction
of the supplied filters, category and status exact-match against the
persisted string value, search a disjunction of literal substring
containment in title and in content. -/
def specMatches (category status search : Option String) (a : Article) : Bool :=
  (match category with
   | none => true
   | some c => categoryStr a.category == c) &&
  (match status with
   | none => true
   | some s => statusStr a.status == s) &&
  (match search with
   | none => true
   | some q => strContains a.title q || strContains a.content q)

/-- A sample published market article, for concrete instances. -/
def a1 : Article :=
  { id := "1", title := "Bitcoin hits high", content := "Bitcoin reached a new high",
    excerpt := "e", category := .market, author := "Admin", published_at := "t",
    read_time := "5 min", image_url := none, tags := "[]", status := .published }

/-- A sample technology article with a distinct id and category. -/
def a2 : Article := { a1 with id := "2", category := .technology }

/-- Twenty-five matching records, for the pagination examples. -/
def db25 : List Article := List.replicate 25 a1

/-- The bootstrap admin user, for concrete instances. -/
def demoUser : User :=
  { id := "u1", name := "Admin", email := "admin@example.com",
    password_hash := hash_password 3 "admin123", role := "admin" }

theorem bcryptDigest_inj (salt : Nat) {p p2 : String}
    (h : bcryptDigest salt p = bcryptDigest salt p2) : p = p2 := by
  have hd := congrArg String.data h
  simp only [bcryptDigest, String.data_append, List.append_assoc] at hd
  exact String.ext (List.append_cancel_left (List.append_cancel_left hd))

/-- C9: verification succeeds for any hash of the same password under
any salt, fails for a hash of a different password, and distinct salts
give distinct hashes of the same password. -/
theorem hash_verify_correct (salt salt2 : Nat) (p p2 : String) :
  verify_password p (hash_password salt p) = true ∧
  (p ≠ p2 → verify_password p (hash_password salt2 p2) = false) ∧
  (salt ≠ salt2 → hash_password salt p ≠ hash_password salt2 p) := by
  refine ⟨by simp [verify_password, hash_password], fun hne => ?_, fun hne h => ?_⟩
  · simp only [verify_password, hash_password]
    rw [beq_eq_false_iff_ne]
    exact fun h => hne (bcryptDigest_inj salt2 h)
  · exact hne (congrArg HashedPassword.salt h)

/-- C9 witness at concrete salts and passwords. -/
theorem hash_verify_correct_witness :
  verify_password "admin123" (hash_password 0 "admin123") = true ∧
  verify_password "admin123" (hash_password 1 "other") = false ∧
  hash_password 0 "admin123" ≠ hash_password 1 "admin123" :=
  ⟨(hash_verify_correct 0 1 "admin123" "other").1,
   (hash_verify_correct 0 1 "admin123" "other").2.1 (by decide),
   (hash_verify_correct 0 1 "admin123" "admin123").2.2 (by decide)⟩

/-- C2: a login against a table without the email and a login against a
table whose user rejects the password produce the same observable
result, both from authenticate_user and from the login handler. -/
theorem authenticate_user_indistinguishable (users1 users2 : List User)
    (e1 p1 e2 p2 : String) (u : User)
    (h1 : users1.find? (fun x => x.email == e1) = none)
    (h2 : users2.find? (fun x => x.email == e2) = some u)
    (h3 : verify_password p2 u.password_hash = false) :
  authenticate_user users1 e1 p1 = authenticate_user users2 e2 p2 ∧
  authenticate_user users1 e1 p1 = none ∧
  login users1 e1 p1 = login users2 e2 p2 ∧
  login users1 e1 p1 = Except.error ⟨401, "Incorrect email or password"⟩ := by
  have ha1 : authenticate_user users1 e1 p1 = none := by
    simp [authenticate_user, h1]
  have ha2 : authenticate_user users2 e2 p2 = none := by
    simp [authenticate_user, h2, h3]
  refine ⟨ha1.trans ha2.symm, ha1, ?_, ?_⟩ <;> simp [login, ha1, ha2]

/-- C2 witness: nonexistent email versus wrong password, concretely. -/
theorem authenticate_user_indistinguishable_witness :
  authenticate_user [] "ghost@example.com" "pw" =
    authenticate_user [demoUser] "admin@example.com" "wrong" :=
  (authenticate_user_indistinguishable [] [demoUser] "ghost@example.com" "pw"
    "admin@example.com" "wrong" demoUser (by decide) (by decide) (by decide)).1

/-- C1 counterexample: the expired-expiry failure, the bad-signature
failure and the unknown-subject failure of token verification are the
same HTTP error, not distinct failure kinds. -/
theorem get_current_user_failures_not_distinct :
  get_current_user (DecodeOutcome.jwtError true) [] =
    get_current_user (DecodeOutcome.jwtError false) [] ∧
  get_current_user (DecodeOutcome.payload (some "u1")) [] =
    get_current_user (DecodeOutcome.jwtError true) [] ∧
  get_current_user (DecodeOutcome.jwtError true) [] =
    Except.error credentials_exception :=
  ⟨rfl, rfl, rfl⟩

/-- C1 amended: token verification fails when decoding raises (invalid
or expired token), when the claim set lacks a subject, and when the
subject resolves to no user, and on success returns the resolved user;
but every failure is the one fixed 401 credentials error rather than a
cause-distinguishing failure. -/
theorem get_current_user_outcomes (d : DecodeOutcome) (users : List User) :
  (∀ e, d = DecodeOutcome.jwtError e →
    get_current_user d users = Except.error credentials_exception) ∧
  (d = DecodeOutcome.payload none →
    get_current_user d users = Except.error credentials_exception) ∧
  (∀ uid, d = DecodeOutcome.payload (some uid) →
    users.find? (fun u => u.id == uid) = none →
    get_current_user d users = Except.error credentials_exception) ∧
  (∀ uid u, d = DecodeOutcome.payload (some uid) →
    users.find? (fun u => u.id == uid) = some u →
    get_current_user d users = Except.ok u) := by
  refine ⟨fun e he => ?_, fun he => ?_, fun uid he hf => ?_, fun uid u he hf => ?_⟩ <;>
    subst he <;> simp [get_current_user, *]

/-- C1 witness: a valid token whose subject resolves is accepted. -/
theorem get_current_user_outcomes_witness :
  get_current_user (DecodeOutcome.payload (some "u1")) [demoUser] =
    Except.ok demoUser :=
  (get_current_user_outcomes (DecodeOutcome.payload (some "u1")) [demoUser]).2.2.2
    "u1" demoUser rfl (by decide)

theorem truthyFilter_some (s : String) (pred : String → Bool) (h : s ≠ "") :
    truthyFilter (some s) pred = pred s := by
  simp [truthyFilter, h]

theorem matchesFilters_eq_specMatches (category status search : Option String)
    (hc : category ≠ some "") (hs : status ≠ some "") (hq : search ≠ some "")
    (a : Article) :
    matchesFilters category status search a = specMatches category status search a := by
  rcases category with _ | c <;> rcases status with _ | s <;> rcases search with _ | q <;>
    simp only [matchesFilters, specMatches, truthyFilter] <;>
    simp_all [truthyFilter_some]

theorem mem_applyWindow (rows : List Article) (offset limit : Int) (a : Article)
    (h : a ∈ applyWindow rows offset limit) : a ∈ rows := by
  simp only [applyWindow] at h
  split at h
  · exact List.drop_subset _ _ h
  · exact List.drop_subset _ _ (List.take_subset _ _ h)

/-- C3: a record passes the composed query filter iff it satisfies the
spec's matching policy (conjunctive exact category and status match,
search a substring disjunction over title and content), the returned
total counts every matching record regardless of the window, and every
returned item satisfies the policy. -/
theorem get_articles_matching_policy (db : List Article)
    (category status search : Option String) (limit offset : Int)
    (hc : category ≠ some "") (hs : status ≠ some "") (hq : search ≠ some "") :
  (∀ a, matchesFilters category status search a = specMatches category status search a) ∧
  (get_articles db category status search limit offset).total =
    (db.filter (specMatches category status search)).length ∧
  (∀ a, a ∈ (get_articles db category status search limit offset).articles →
    specMatches category status search a = true) := by
  have hfun : matchesFilters category status search = specMatches category status search :=
    funext (matchesFilters_eq_specMatches category status search hc hs hq)
  refine ⟨fun a => by rw [hfun], ?_, fun a ha => ?_⟩
  · simp [get_articles, hfun]
  · have : a ∈ db.filter (matchesFilters category status search) :=
      mem_applyWindow _ _ _ _ ha
    rw [hfun] at this
    exact (List.mem_filter.mp this).2

/-- C3 witness: an exact category filter counts only the one matching
record of the two stored. -/
theorem get_articles_matching_policy_witness :
  (get_articles [a1, a2] (some "market") none none 10 0).total =
    (List.filter (specMatches (some "market") none none) [a1, a2]).length :=
  (get_articles_matching_policy [a1, a2] (some "market") none none 10 0
    (by decide) (by decide) (by decide)).2.1

/-- C4: hasMore equals (offset + limit) < total where total counts all
matching records; in particular with 25 matching records, limit 10 and
offset 0 give ten items and hasMore true, and offset 20 gives the last
five items and hasMore false. -/
theorem get_articles_has_more_formula (db : List Article)
    (category status search : Option String) (limit offset : Int) :
  (get_articles db category status search limit offset).has_more =
    decide (offset + limit <
      ((db.filter (matchesFilters category status search)).length : Int)) ∧
  (get_articles db25 none none none 10 0).total = 25 ∧
  (get_articles db25 none none none 10 0).articles.length = 10 ∧
  (get_articles db25 none none none 10 0).has_more = true ∧
  (get_articles db25 none none none 10 20).articles.length = 5 ∧
  (get_articles db25 none none none 10 20).has_more = false :=
  ⟨rfl, by decide, by decide, by decide, by decide, by decide⟩

/-- C5 counterexample: a negative limit is passed through to SQLite,
where it means no upper bound, so limit -1 returns every record instead
of an empty window; and with 25 matching records, offset 30 and limit
-10 the offset exceeds the total yet hasMore is still true. -/
theorem get_articles_window_edge_counterexample :
  (get_articles db25 none none none (-1) 0).articles ≠ [] ∧
  (get_articles db25 none none none (-1) 0).articles.length = 25 ∧
  (get_articles db25 none none none (-10) 30).total = 25 ∧
  (get_articles db25 none none none (-10) 30).has_more = true := by
  decide

/-- C5 amended: limit 0 yields an empty window with the full total, a
negative limit yields every matching record from the offset onward, and
offset at or past the total yields empty items and a false hasMore
provided the limit is nonnegative. -/
theorem get_articles_window_edges (db : List Article)
    (category status search : Option String) (limit offset : Int) :
  ((get_articles db category status search 0 offset).articles = [] ∧
   (get_articles db category status search 0 offset).total =
     (db.filter (matchesFilters category status search)).length) ∧
  (limit < 0 →
    (get_articles db category status search limit offset).articles =
      (db.filter (matchesFilters category status search)).drop offset.toNat) ∧
  (((db.filter (matchesFilters category status search)).length : Int) ≤ offset →
    0 ≤ limit →
    (get_articles db category status search limit offset).articles = [] ∧
    (get_articles db category status search limit offset).has_more = false) := by
  refine ⟨⟨?_, rfl⟩, fun hneg => ?_, fun hoff hlim => ⟨?_, ?_⟩⟩
  · simp [get_articles, applyWindow]
  · simp [get_articles, applyWindow, hneg]
  · have hle : (db.filter (matchesFilters category status search)).length ≤ offset.toNat := by
      omega
    simp [get_articles, applyWindow, List.drop_eq_nil_of_le hle]
  · simp only [get_articles, decide_eq_false_iff_not, not_lt]
    omega

/-- C5 amended witness: offset past the total with a nonnegative limit
yields an empty item list. -/
theorem get_articles_window_edges_witness :
  (get_articles db25 none none none 7 30).articles = [] :=
  ((get_articles_window_edges db25 none none none 7 30).2.2 (by decide) (by decide)).1

/-- C10: an empty-string category, status or search parameter is falsy
in Python, so the corresponding filter is not applied at all: the whole
listing coincides with the unfiltered one, and with an empty category
string records of every category come back rather than none. -/
theorem empty_string_filter_treated_absent (cf stf sef : Option String)
    (a : Article) (db : List Article) (limit offset : Int) :
  matchesFilters (some "") stf sef a = matchesFilters none stf sef a ∧
  matchesFilters cf (some "") sef a = matchesFilters cf none sef a ∧
  matchesFilters cf stf (some "") a = matchesFilters cf stf none a ∧
  get_articles db (some "") stf sef limit offset =
    get_articles db none stf sef limit offset ∧
  (get_articles [a1, a2] (some "") none none 10 0).articles = [a1, a2] ∧
  (get_articles [a1, a2] (some "") none none 10 0).total = 2 ∧
  a1.category ≠ a2.category := by
  have hfun : matchesFilters (some "") stf sef = matchesFilters none stf sef := by
    funext x
    simp [matchesFilters, truthyFilter]
  refine ⟨by rw [hfun], ?_, ?_, by simp [get_articles, hfun], by decide, by decide, by decide⟩
  · simp [matchesFilters, truthyFilter]
  · simp [matchesFilters, truthyFilter]

/-- C6: the update patch changes exactly the fields the request
provides — each absent field keeps its previous value, identifier,
author and publication timestamp are never touched — and read_time is
recomputed by the word-count formula exactly when content is provided. -/
theorem applyUpdate_partial_patch (a : Article) (d : UpdateArticleData) :
  (applyUpdate a d).id = a.id ∧
  (applyUpdate a d).author = a.author ∧
  (applyUpdate a d).published_at = a.published_at ∧
  (applyUpdate a d).title = d.title.getD a.title ∧
  (applyUpdate a d).content = d.content.getD a.content ∧
  (applyUpdate a d).excerpt = d.excerpt.getD a.excerpt ∧
  (applyUpdate a d).category = d.category.getD a.category ∧
  (applyUpdate a d).tags = (d.tags.map encodeTags).getD a.tags ∧
  (applyUpdate a d).image_url = (d.image_url.map some).getD a.image_url ∧
  (applyUpdate a d).status = d.status.getD a.status ∧
  (applyUpdate a d).read_time = (d.content.map read_time_of).getD a.read_time := by
  rcases d with ⟨t, c, e, cat, tg, iu, st⟩
  cases t <;> cases c <;> cases e <;> cases cat <;> cases tg <;> cases iu <;> cases st <;>
    exact ⟨rfl, rfl, rfl, rfl, rfl, rfl, rfl, rfl, rfl, rfl, rfl⟩

/-- C7: the created article carries the caller-supplied fresh
identifier (id uniqueness of the table is preserved when that
identifier is fresh, and storage never assigns it), the acting user's
display name as author, the word-count read-time formula (whose value
is at least one minute), and status published when the request leaves
it unspecified. -/
theorem create_article_properties (db : List Article) (freshId now : String)
    (data : CreateArticleData) (current_user : User)
    (hfresh : freshId ∉ db.map Article.id)
    (hnodup : (db.map Article.id).Nodup) :
  (create_article freshId now data current_user db).1.id = freshId ∧
  (create_article freshId now data current_user db).1.author = current_user.name ∧
  (create_article freshId now data current_user db).1.read_time =
    toString (word_count data.content / 200 + 1) ++ " min" ∧
  1 ≤ word_count data.content / 200 + 1 ∧
  (create_article freshId now data current_user db).1.status =
    data.status.getD StatusEnum.published ∧
  ((create_article freshId now data current_user db).2.map Article.id).Nodup := by
  refine ⟨rfl, rfl, rfl, Nat.le_add_left 1 _, rfl, ?_⟩
  simp only [create_article, List.map_append, List.map_cons, List.map_nil]
  rw [List.nodup_append]
  refine ⟨hnodup, List.nodup_singleton _, ?_⟩
  rw [List.disjoint_singleton]
  exact hfresh

/-- C7 witness: creating an article with a fresh uuid over the two
sample rows keeps the stored identifiers pairwise distinct. -/
theorem create_article_properties_witness :
  ((create_article "fresh-uuid-1" "2024-01-01T00:00:00"
      { title := "T", content := "some words here", excerpt := "E",
        category := .analysis, tags := ["x"] }
      demoUser [a1, a2]).2.map Article.id).Nodup :=
  (create_article_properties [a1, a2] "fresh-uuid-1" "2024-01-01T00:00:00"
    { title := "T", content := "some words here", excerpt := "E",
      category := .analysis, tags := ["x"] }
    demoUser (by decide) (by decide)).2.2.2.2.2

theorem parseStringBody_quote (rest : List Char) :
    parseStringBody ('"' :: rest) = some ([], rest) := by
  rw [parseStringBody.eq_def]
  simp

theorem parseStringBody_backslash (e : Char) (rest : List Char) :
    parseStringBody ('\\' :: e :: rest) =
      match unescapeChar e with
      | none => none
      | some d =>
        match parseStringBody rest with
        | none => none
        | some (s, rem) => some (d :: s, rem) := by
  rw [parseStringBody.eq_def]
  simp

theorem parseStringBody_other (c : Char) (rest : List Char)
    (h1 : c ≠ '"') (h2 : c ≠ '\\') :
    parseStringBody (c :: rest) =
      match parseStringBody rest with
      | none => none
      | some (s, rem) => some (c :: s, rem) := by
  rw [parseStringBody.eq_def]
  simp [h1, h2]
theorem parseStringBody_encode (s : List Char) (rest : List Char) :
    parseStringBody (s.flatMap escapeChar ++ '"' :: rest) = some (s, rest) := by
  induction s with
  | nil =>
    simp only [List.flatMap_nil, List.nil_append]
    exact parseStringBody_quote rest
  | cons c s ih =>
    simp only [List.flatMap_cons, List.append_assoc]
    by_cases h1 : c = '"'
    · subst h1
      simp [escapeChar, parseStringBody_backslash, unescapeChar, ih]
    by_cases h2 : c = '\\'
    · subst h2
      simp [escapeChar, parseStringBody_backslash, unescapeChar, ih]
    by_cases h3 : c = '\n'
    · subst h3
      simp [escapeChar, parseStringBody_backslash, unescapeChar, ih]
    by_cases h4 : c = '\t'
    · subst h4
      simp [escapeChar, parseStringBody_backslash, unescapeChar, ih]
    by_cases h5 : c = '\r'
    · subst h5
      simp [escapeChar, parseStringBody_backslash, unescapeChar, ih]
    by_cases h6 : c = '\x08'
    · subst h6
      simp [escapeChar, parseStringBody_backslash, unescapeChar, ih]
    by_cases h7 : c = '\x0c'
    · subst h7
      simp [escapeChar, parseStringBody_backslash, unescapeChar, ih]
    rw [show escapeChar c = [c] by simp [escapeChar, h1, h2, h3, h4, h5, h6, h7]]
    rw [List.singleton_append, parseStringBody_other c _ h1 h2, ih]
theorem parseJsonString_encode (t : String) (rest : List Char) :
    parseJsonString (encodeStringChars t ++ rest) = some (t.data, rest) := by
  have h : encodeStringChars t ++ rest =
      '"' :: (t.data.flatMap escapeChar ++ '"' :: rest) := by
    simp [encodeStringChars]
  rw [h, parseJsonString, parseStringBody_encode]

theorem joinTags_pair (t t2 : String) (ts2 : List String) :
    joinTags (t :: t2 :: ts2) =
      encodeStringChars t ++ ',' :: ' ' :: joinTags (t2 :: ts2) := rfl

theorem length_le_joinTags (ts : List String) :
    ts.length ≤ (joinTags ts).length + 1 := by
  induction ts with
  | nil => simp
  | cons t ts ih =>
    cases ts with
    | nil => simp [joinTags, encodeStringChars]
    | cons t2 ts2 =>
      rw [joinTags_pair]
      simp only [List.length_cons, List.length_append] at ih ⊢
      omega

theorem parseItemsAux_encode (ts : List String) (fuel : Nat)
    (hne : ts ≠ []) (hfuel : ts.length ≤ fuel) :
    parseItemsAux fuel (joinTags ts ++ [']']) = some (ts.map String.data) := by
  induction ts generalizing fuel with
  | nil => exact absurd rfl hne
  | cons t ts ih =>
    cases fuel with
    | zero => simp at hfuel
    | succ f =>
      cases ts with
      | nil =>
        have hj : joinTags [t] = encodeStringChars t := rfl
        rw [hj, parseItemsAux, parseJsonString_encode]
        simp
      | cons t2 ts2 =>
        have hjoin : joinTags (t :: t2 :: ts2) ++ [']'] =
            encodeStringChars t ++ (',' :: ' ' :: (joinTags (t2 :: ts2) ++ [']'])) := by
          rw [joinTags_pair]
          simp [List.append_assoc]
        rw [hjoin, parseItemsAux, parseJsonString_encode]
        have hlen : (t2 :: ts2).length ≤ f := by
          simp only [List.length_cons] at hfuel ⊢
          omega
        simp [ih f (by simp) hlen]
/-- C8: decoding the persisted tag blob recovers exactly the original
ordered tag list, for every list of tag strings, including strings
containing the encoding's delimiter characters. -/
theorem decodeTags_roundtrip (ts : List String) :
    decodeTags (encodeTags ts) = some ts := by
  cases ts with
  | nil => rfl
  | cons t ts' =>
    have hdata : (encodeTags (t :: ts')).data =
        '[' :: (joinTags (t :: ts') ++ [']']) := rfl
    have hne : joinTags (t :: ts') ++ [']'] ≠ [']'] := by
      cases ts' <;> simp [joinTags, joinTags_pair, encodeStringChars]
    have hfuel : (t :: ts').length ≤ (joinTags (t :: ts') ++ [']']).length := by
      have h1 := length_le_joinTags (t :: ts')
      simp only [List.length_cons] at h1
      simp only [List.length_append, List.length_cons, List.length_singleton]
      omega
    rw [decodeTags, hdata]
    simp only [if_neg hne]
    rw [parseItemsAux_encode (t :: ts') _ (by simp) hfuel]
    have hmk : (String.mk ∘ String.data) = id := funext fun s => rfl
    simp [List.map_map, hmk]

end NewsBackend
